import Mathlib

/-!
Verification of the epoch-wise training control loop of
`training_loop.py` (class `Train`): per-class confusion accounting,
metric derivation with 2-decimal rounding, and the early-stopping policy
with best-model checkpointing.

Modelling choices:
  - Python floats are embedded as exact rationals (`ℚ`); `round(x, 2)`
    is embedded as exact round-half-to-even at 2 decimal places.
  - The model object is opaque: snapshots are values of type `ℕ`.
    `deepcopy` therefore becomes plain value capture.
  - The checkpoint directory is embedded as the list of identifiers of
    the `.pt` files currently on disk (`saved_files`); `os.remove` fails
    on a missing file and `torch.save` appends, as in the source.
  - Fallible steps (list indexing with `[-2]`, `os.remove`) return
    `Except`; an uncaught Python exception is an `.error` result.
-/

/-- Executable floor of a rational, mirroring integer floor division. -/
def ratFloor (x : ℚ) : ℤ := x.num.ediv x.den

/-- Round a rational to the nearest integer, ties to even: the rounding
mode of Python 3 `round`. -/
def roundHalfEven (x : ℚ) : ℤ :=
  let n := ratFloor x
  let frac := x - (n : ℚ)
  if frac < 1/2 then n
  else if 1/2 < frac then n + 1
  else if n % 2 = 0 then n else n + 1

/-- Python `round(x, 2)`: round to 2 decimal places, ties to even. -/
def pyRound2 (x : ℚ) : ℚ := (roundHalfEven (100 * x) : ℚ) / 100

/-- Per-class confusion counters of one phase. The three lists are the
attributes `self.target_true`, `self.predicted_true`, `self.correct_true`
of `Train`, each of length `no_of_classes`. -/
structure ClassCounts where
  target_true : List ℕ
  predicted_true : List ℕ
  correct_true : List ℕ
  deriving DecidableEq

/-- The reset performed at the start of `train_epoch` and
`validate_epoch`: `[0 for _ in range(self.no_of_classes)]` three times. -/
def zeroCounts (n : ℕ) : ClassCounts :=
  ⟨List.replicate n 0, List.replicate n 0, List.replicate n 0⟩

/-- Positions where true and predicted labels are both `clas`, counted
over `zip(labels_list, preds_list)` exactly as in `batch_metrics`
(`zip` truncates to the shorter sequence). -/
def countCorrect (labels preds : List ℕ) (clas : ℕ) : ℕ :=
  (labels.zip preds).countP (fun p => decide (p.1 = clas ∧ p.2 = clas))

/-- `Train.batch_metrics`: for each `clas in range(no_of_classes)`,
add to `target_true[clas]` the number of true labels equal to `clas`,
to `predicted_true[clas]` the number of predictions equal to `clas`,
and to `correct_true[clas]` the number of positions where both equal
`clas`. No validation of the two sequences is performed. -/
def batch_metrics (n : ℕ) (c : ClassCounts) (labels_list preds_list : List ℕ) :
    ClassCounts where
  target_true := (List.range n).map fun clas =>
    c.target_true.getD clas 0 + labels_list.count clas
  predicted_true := (List.range n).map fun clas =>
    c.predicted_true.getD clas 0 + preds_list.count clas
  correct_true := (List.range n).map fun clas =>
    c.correct_true.getD clas 0 + countCorrect labels_list preds_list clas

/-- One phase of accumulation: fold `batch_metrics` over the batches of
`(labels_list, preds_list)` pairs, starting from the reset counters. -/
def accumulatePhase (n : ℕ) (batches : List (List ℕ × List ℕ)) : ClassCounts :=
  batches.foldl (fun c b => batch_metrics n c b.1 b.2) (zeroCounts n)

/-- Per-class recall from `epoch_metrics`:
`round(correct_true[clas] / target_true[clas], 2) if target_true[clas] else 0`. -/
def recall_c (correct target : ℕ) : ℚ :=
  if target ≠ 0 then pyRound2 ((correct : ℚ) / (target : ℚ)) else 0

/-- Per-class precision from `epoch_metrics`:
`round(correct_true[clas] / predicted_true[clas], 2) if predicted_true[clas] else 0`. -/
def precision_c (correct predicted : ℕ) : ℚ :=
  if predicted ≠ 0 then pyRound2 ((correct : ℚ) / (predicted : ℚ)) else 0

/-- Per-class F1 from `epoch_metrics`, with `denominator` the sum of the
already rounded precision and recall:
`2 * round(precisions[clas] * recalls[clas] / denominator, 2) if denominator else 0`. -/
def f1_c (p r : ℚ) : ℚ :=
  if p + r ≠ 0 then 2 * pyRound2 (p * r / (p + r)) else 0

/-- The list `recalls` computed by `epoch_metrics` over
`clas in range(no_of_classes)`. -/
def recalls (n : ℕ) (c : ClassCounts) : List ℚ :=
  (List.range n).map fun clas =>
    recall_c (c.correct_true.getD clas 0) (c.target_true.getD clas 0)

/-- The list `precisions` computed by `epoch_metrics`. -/
def precisions (n : ℕ) (c : ClassCounts) : List ℚ :=
  (List.range n).map fun clas =>
    precision_c (c.correct_true.getD clas 0) (c.predicted_true.getD clas 0)

/-- The list `f1_scores` computed by `epoch_metrics`, derived from the
rounded per-class precisions and recalls. -/
def f1_scores (n : ℕ) (c : ClassCounts) : List ℚ :=
  (List.range n).map fun clas =>
    f1_c (precision_c (c.correct_true.getD clas 0) (c.predicted_true.getD clas 0))
         (recall_c (c.correct_true.getD clas 0) (c.target_true.getD clas 0))

/-- The uncaught Python exceptions that can escape
`early_stopping_check`: `IndexError` from `early_stopping_checkpoints[-2]`
and `FileNotFoundError` from `os.remove`. -/
inductive StopError
  | indexError
  | fileNotFound
  deriving DecidableEq

/-- The mutable state that `training` initialises before the epoch loop
and that `early_stopping_check` updates, together with the set of
checkpoint files currently on disk (`saved_files`, identifiers are the
1-based epoch numbers used in `model_epoch{e}.pt`). -/
structure TrainState where
  threshold_val_loss : ℚ
  threshold_avg_recall : ℚ
  best_model : ℕ
  unchanged_epochs : ℕ
  early_stopping_checkpoints : List ℕ
  saved_files : List ℕ
  deriving DecidableEq

/-- The initialisation in `training`: `threshold_val_loss = 10e+5`
(the float literal `10e+5`, that is one million — not infinity),
`threshold_avg_recall = 0`, `best_model = deepcopy(model)`,
`unchanged_epochs = 0`, `early_stopping_checkpoints = []`; no checkpoint
file has been written yet. -/
def initTrainState (model : ℕ) : TrainState where
  threshold_val_loss := 1000000
  threshold_avg_recall := 0
  best_model := model
  unchanged_epochs := 0
  early_stopping_checkpoints := []
  saved_files := []

/-- Python negative indexing `l[-k]`: defined when `1 ≤ k ≤ len(l)`,
otherwise an `IndexError` (modelled as `none`). -/
def pyNegIdx (l : List ℕ) (k : ℕ) : Option ℕ :=
  if k ≤ l.length ∧ k ≠ 0 then l[l.length - k]? else none

/-- The quantity `epoch_val_avg_recall` of `early_stopping_check`: the
latest per-class validation recalls averaged over the classes not listed
in `labels_of_normal_classes` (over all classes when that attribute is
`None`). `lastRecalls` holds `j[-1]` for each class list `j` of
`validation_history['recall_per_class']`. -/
def targetAvgRecall (n : ℕ) (normal : Option (List ℕ)) (lastRecalls : List ℚ) : ℚ :=
  match normal with
  | some nl =>
      (((List.range n).filter (fun i => decide (i ∉ nl))).map
          (fun i => lastRecalls.getD i 0)).sum / ((n : ℚ) - (nl.length : ℚ))
  | none =>
      ((List.range n).map (fun i => lastRecalls.getD i 0)).sum / (n : ℚ)

/-- `Train.early_stopping_check`. Inputs: `epoch_val_loss` is
`validation_history['loss'][-1]`, `lastRecalls` the latest per-class
validation recalls, `current_epoch` is `len(validation_history['loss'])`
(the 1-based epoch number) and `model` the current live model. If the
validation loss strictly dropped below `threshold_val_loss` and the
targeted average recall strictly exceeded `threshold_avg_recall`, the
epoch is recorded, the best model replaced, the counter reset, both
thresholds updated, then — whenever `current_epoch >= 2` — the file of
`early_stopping_checkpoints[-2]` is removed before the new checkpoint is
saved. Otherwise `unchanged_epochs` is incremented. -/
def early_stopping_check (n : ℕ) (normal : Option (List ℕ)) (s : TrainState)
    (model : ℕ) (epoch_val_loss : ℚ) (lastRecalls : List ℚ)
    (current_epoch : ℕ) : Except StopError TrainState :=
  let epoch_val_avg_recall := targetAvgRecall n normal lastRecalls
  if epoch_val_loss < s.threshold_val_loss ∧
      s.threshold_avg_recall < epoch_val_avg_recall then
    let cps := s.early_stopping_checkpoints ++ [current_epoch]
    let s1 : TrainState :=
      { s with
        early_stopping_checkpoints := cps
        best_model := model
        unchanged_epochs := 0
        threshold_val_loss := epoch_val_loss
        threshold_avg_recall := epoch_val_avg_recall }
    if 2 ≤ current_epoch then
      match pyNegIdx cps 2 with
      | none => .error .indexError
      | some prev =>
        if prev ∈ s1.saved_files then
          .ok { s1 with saved_files := (s1.saved_files.erase prev) ++ [current_epoch] }
        else .error .fileNotFound
    else .ok { s1 with saved_files := s1.saved_files ++ [current_epoch] }
  else .ok { s with unchanged_epochs := s.unchanged_epochs + 1 }

/-- What one epoch of the orchestrator loop feeds the stopping policy:
the live model after this epoch's training pass, the epoch validation
loss appended to the history, and the latest per-class validation
recalls. The training and validation passes themselves are driven by the
external model / loss / optimizer / loader collaborators. -/
structure EpochObs where
  model : ℕ
  val_loss : ℚ
  epoch_recalls : List ℚ
  deriving DecidableEq

/-- The epoch loop of `Train.training` restricted to its control flow:
per epoch, run `early_stopping_check` on that epoch's validation
results, then `break` as soon as `unchanged_epochs == patience`.
Returns the final state and the number of epochs executed; the epoch
counter `e` is 0-based and the check receives `e + 1` (the length of the
validation loss history after this epoch). -/
def trainingLoop (n : ℕ) (normal : Option (List ℕ)) (patience : ℕ) :
    List EpochObs → ℕ → TrainState → Except StopError (TrainState × ℕ)
  | [], _, s => .ok (s, 0)
  | o :: rest, e, s =>
    match early_stopping_check n normal s o.model o.val_loss o.epoch_recalls (e + 1) with
    | .error err => .error err
    | .ok s' =>
      if s'.unchanged_epochs = patience then .ok (s', 1)
      else
        match trainingLoop n normal patience rest (e + 1) s' with
        | .error err => .error err
        | .ok (sf, k) => .ok (sf, k + 1)

-- sanity examples for the rounding model (kept as anonymous examples)
example : pyRound2 (1/3) = 33/100 := by norm_num [pyRound2, roundHalfEven, ratFloor]
example : pyRound2 (1/8) = 12/100 := by norm_num [pyRound2, roundHalfEven, ratFloor]

theorem ratFloor_eq (x : ℚ) : ratFloor x = ⌊x⌋ := by
  rw [ratFloor, Rat.floor_def]
  rfl

theorem roundHalfEven_ge {x : ℚ} {a : ℤ} (h : (a : ℚ) ≤ x) :
    a ≤ roundHalfEven x := by
  have hnb : a ≤ ⌊x⌋ := Int.le_floor.mpr h
  simp only [roundHalfEven, ratFloor_eq]
  split_ifs <;> omega

theorem roundHalfEven_le {x : ℚ} {b : ℤ} (h : x ≤ (b : ℚ)) :
    roundHalfEven x ≤ b := by
  have hfl : ((⌊x⌋ : ℤ) : ℚ) ≤ x := Int.floor_le x
  have hnb : ⌊x⌋ ≤ b := by exact_mod_cast hfl.trans h
  have key : ¬(x - ((⌊x⌋ : ℤ) : ℚ) < 1/2) → ⌊x⌋ + 1 ≤ b := by
    intro hge
    rcases lt_or_eq_of_le hnb with hlt | heq
    · omega
    · exact absurd (by rw [heq]; linarith) hge
  simp only [roundHalfEven, ratFloor_eq]
  split_ifs with h1 h2 h3
  · exact hnb
  · exact key h1
  · exact hnb
  · exact key h1

theorem roundHalfEven_intCast (m : ℤ) : roundHalfEven ((m : ℤ) : ℚ) = m := by
  simp only [roundHalfEven, ratFloor_eq, Int.floor_intCast]
  norm_num

theorem pyRound2_nonneg {x : ℚ} (h : 0 ≤ x) : 0 ≤ pyRound2 x := by
  have h1 : (0 : ℤ) ≤ roundHalfEven (100 * x) := roundHalfEven_ge (by push_cast; linarith)
  rw [pyRound2]
  have h2 : (0 : ℚ) ≤ (roundHalfEven (100 * x) : ℚ) := by exact_mod_cast h1
  positivity

theorem pyRound2_le_div100 {x : ℚ} {b : ℤ} (h : 100 * x ≤ (b : ℚ)) :
    pyRound2 x ≤ (b : ℚ) / 100 := by
  have h1 : roundHalfEven (100 * x) ≤ b := roundHalfEven_le h
  rw [pyRound2]
  have h2 : (roundHalfEven (100 * x) : ℚ) ≤ (b : ℚ) := by exact_mod_cast h1
  linarith

theorem pyRound2_le_one {x : ℚ} (h : x ≤ 1) : pyRound2 x ≤ 1 := by
  have := pyRound2_le_div100 (x := x) (b := 100) (by push_cast; linarith)
  norm_num at this
  exact this

theorem pyRound2_le_half {x : ℚ} (h : x ≤ 1/2) : pyRound2 x ≤ 1/2 := by
  have := pyRound2_le_div100 (x := x) (b := 50) (by push_cast; linarith)
  norm_num at this
  exact this

theorem pyRound2_centi (m : ℤ) : pyRound2 ((m : ℚ) / 100) = (m : ℚ) / 100 := by
  rw [pyRound2]
  have h : (100 : ℚ) * ((m : ℚ) / 100) = (m : ℚ) := by field_simp
  rw [h, roundHalfEven_intCast]

theorem pyRound2_double (x : ℚ) : pyRound2 (2 * pyRound2 x) = 2 * pyRound2 x := by
  have h : 2 * pyRound2 x = ((2 * roundHalfEven (100 * x) : ℤ) : ℚ) / 100 := by
    rw [pyRound2]; push_cast; ring
  rw [h, pyRound2_centi]

theorem harmonic_le_half {p r : ℚ} (hp0 : 0 ≤ p) (hp1 : p ≤ 1) (hr0 : 0 ≤ r)
    (hr1 : r ≤ 1) : p * r / (p + r) ≤ 1/2 := by
  rcases eq_or_lt_of_le (add_nonneg hp0 hr0) with h0 | h0
  · rw [← h0, div_zero]
    norm_num
  · rw [div_le_iff₀ h0]
    nlinarith [mul_le_of_le_one_right hp0 hr1, mul_le_of_le_one_left hr0 hp1]

theorem recall_c_bounds {correct target : ℕ} (h : correct ≤ target) :
    0 ≤ recall_c correct target ∧ recall_c correct target ≤ 1 := by
  rw [recall_c]
  split_ifs with ht
  · have hpos : (0 : ℚ) < (target : ℚ) := by
      exact_mod_cast Nat.pos_of_ne_zero ht
    refine ⟨pyRound2_nonneg (by positivity), pyRound2_le_one ?_⟩
    rw [div_le_one hpos]
    exact_mod_cast h
  · norm_num

theorem precision_c_bounds {correct predicted : ℕ} (h : correct ≤ predicted) :
    0 ≤ precision_c correct predicted ∧ precision_c correct predicted ≤ 1 := by
  rw [precision_c]
  split_ifs with ht
  · have hpos : (0 : ℚ) < (predicted : ℚ) := by
      exact_mod_cast Nat.pos_of_ne_zero ht
    refine ⟨pyRound2_nonneg (by positivity), pyRound2_le_one ?_⟩
    rw [div_le_one hpos]
    exact_mod_cast h
  · norm_num

theorem recall_c_nonneg (correct target : ℕ) : 0 ≤ recall_c correct target := by
  rw [recall_c]
  split_ifs with ht
  · exact pyRound2_nonneg (by positivity)
  · norm_num

theorem precision_c_nonneg (correct predicted : ℕ) :
    0 ≤ precision_c correct predicted := by
  rw [precision_c]
  split_ifs with ht
  · exact pyRound2_nonneg (by positivity)
  · norm_num

theorem f1_c_bounds {p r : ℚ} (hp0 : 0 ≤ p) (hp1 : p ≤ 1) (hr0 : 0 ≤ r)
    (hr1 : r ≤ 1) : 0 ≤ f1_c p r ∧ f1_c p r ≤ 1 := by
  rw [f1_c]
  split_ifs with h
  · constructor
    · have := pyRound2_nonneg (div_nonneg (mul_nonneg hp0 hr0) (add_nonneg hp0 hr0))
      linarith
    · have := pyRound2_le_half (harmonic_le_half hp0 hp1 hr0 hr1)
      linarith
  · norm_num

theorem getD_map_range {α : Type} (f : ℕ → α) (d : α) {n k : ℕ} (hk : k < n) :
    (((List.range n).map f).getD k d) = f k := by
  have h1 : k < ((List.range n).map f).length := by simpa using hk
  rw [List.getD_eq_getElem _ _ h1, List.getElem_map, List.getElem_range]

theorem map_range_getD (l : List ℕ) :
    (List.range l.length).map (fun k => l.getD k 0) = l := by
  induction l with
  | nil => rfl
  | cons a t ih =>
    have h1 : List.range (a :: t).length = 0 :: (List.range t.length).map Nat.succ := by
      rw [List.length_cons, List.range_succ_eq_map]
    rw [h1, List.map_cons, List.map_map]
    have h2 : ((fun k => (a :: t).getD k 0) ∘ Nat.succ) = fun k => t.getD k 0 := by
      funext k
      simp [List.getD_cons_succ]
    rw [h2, ih]
    simp [List.getD_cons_zero]

theorem sum_indicator_range {b n : ℕ} (h : b < n) :
    ((List.range n).map (fun k => if k = b then 1 else 0)).sum = 1 := by
  induction n with
  | zero => omega
  | succ m ih =>
    rw [List.range_succ, List.map_append, List.sum_append]
    rcases Nat.lt_succ_iff_lt_or_eq.mp h with h' | h'
    · rw [ih h']
      simp [Nat.ne_of_gt h']
    · subst h'
      have hz : ((List.range b).map (fun k => if k = b then 1 else 0)).sum = 0 := by
        apply List.sum_eq_zero
        intro x hx
        obtain ⟨k, hk, rfl⟩ := List.mem_map.mp hx
        rw [List.mem_range] at hk
        simp [Nat.ne_of_lt hk]
      rw [hz]
      simp

theorem sum_count_range {n : ℕ} (ls : List ℕ) (h : ∀ l ∈ ls, l < n) :
    ((List.range n).map (fun k => ls.count k)).sum = ls.length := by
  induction ls with
  | nil => simp
  | cons a t ih =>
    have ha : a < n := h a (by simp)
    have ht : ∀ l ∈ t, l < n := fun l hl => h l (by simp [hl])
    have hfun : (fun k => (a :: t).count k) =
        fun k => t.count k + if k = a then 1 else 0 := by
      funext k
      rw [List.count_cons]
      by_cases hak : a = k
      · subst hak
        simp
      · simp [hak, Ne.symm hak]
    rw [hfun, List.sum_map_add, ih ht, sum_indicator_range ha, List.length_cons]

theorem check_not_improve (n : ℕ) (normal : Option (List ℕ)) (s : TrainState)
    (model : ℕ) (loss : ℚ) (recalls : List ℚ) (ce : ℕ)
    (hc : ¬(loss < s.threshold_val_loss ∧
        s.threshold_avg_recall < targetAvgRecall n normal recalls)) :
    early_stopping_check n normal s model loss recalls ce
      = .ok { s with unchanged_epochs := s.unchanged_epochs + 1 } := by
  simp only [early_stopping_check]
  rw [if_neg hc]

theorem check_improve_noprior (n : ℕ) (normal : Option (List ℕ)) (s : TrainState)
    (model : ℕ) (loss : ℚ) (recalls : List ℚ) (ce : ℕ)
    (hc : loss < s.threshold_val_loss ∧
        s.threshold_avg_recall < targetAvgRecall n normal recalls)
    (hce : ce < 2) :
    early_stopping_check n normal s model loss recalls ce
      = .ok ⟨loss, targetAvgRecall n normal recalls, model, 0,
             s.early_stopping_checkpoints ++ [ce], s.saved_files ++ [ce]⟩ := by
  simp only [early_stopping_check]
  rw [if_pos hc, if_neg (by omega)]

/-- C1: the early-stopping evaluation transitions to IMPROVED (recording
the epoch number, replacing the best-model snapshot, resetting
`unchanged_epochs` to 0 and updating both thresholds) only if the
current validation loss is strictly below `threshold_val_loss` and the
stored `threshold_avg_recall` is strictly below the current targeted
average recall; in every other case it increments `unchanged_epochs` and
leaves the rest of the state unchanged. -/
theorem improved_iff_strict_double_improvement
    (n : ℕ) (normal : Option (List ℕ)) (s : TrainState) (model : ℕ)
    (loss : ℚ) (recalls : List ℚ) (ce : ℕ) :
    (¬(loss < s.threshold_val_loss ∧
        s.threshold_avg_recall < targetAvgRecall n normal recalls) →
      early_stopping_check n normal s model loss recalls ce
        = .ok { s with unchanged_epochs := s.unchanged_epochs + 1 })
    ∧ (∀ s', early_stopping_check n normal s model loss recalls ce = .ok s' →
        ((loss < s.threshold_val_loss ∧
            s.threshold_avg_recall < targetAvgRecall n normal recalls)
          ∧ s'.early_stopping_checkpoints = s.early_stopping_checkpoints ++ [ce]
          ∧ s'.best_model = model
          ∧ s'.unchanged_epochs = 0
          ∧ s'.threshold_val_loss = loss
          ∧ s'.threshold_avg_recall = targetAvgRecall n normal recalls)
        ∨ (¬(loss < s.threshold_val_loss ∧
            s.threshold_avg_recall < targetAvgRecall n normal recalls)
          ∧ s' = { s with unchanged_epochs := s.unchanged_epochs + 1 })) := by
  constructor
  · exact check_not_improve n normal s model loss recalls ce
  · intro s' hs'
    by_cases hc : loss < s.threshold_val_loss ∧
        s.threshold_avg_recall < targetAvgRecall n normal recalls
    · left
      refine ⟨hc, ?_⟩
      simp only [early_stopping_check] at hs'
      rw [if_pos hc] at hs'
      by_cases hce : 2 ≤ ce
      · rw [if_pos hce] at hs'
        cases hidx : pyNegIdx (s.early_stopping_checkpoints ++ [ce]) 2 with
        | none =>
          rw [hidx] at hs'
          simp at hs'
        | some prev =>
          rw [hidx] at hs'
          dsimp only at hs'
          by_cases hmem : prev ∈ s.saved_files
          · rw [if_pos hmem] at hs'
            injection hs' with h
            subst h
            exact ⟨rfl, rfl, rfl, rfl, rfl⟩
          · rw [if_neg hmem] at hs'
            simp at hs'
      · rw [if_neg hce] at hs'
        injection hs' with h
        subst h
        exact ⟨rfl, rfl, rfl, rfl, rfl⟩
    · right
      rw [check_not_improve n normal s model loss recalls ce hc] at hs'
      injection hs' with h
      exact ⟨hc, h.symm⟩

/-- Witness for C1 at a concrete non-improving input: the recall target
did not strictly improve, so the counter is incremented. -/
theorem improved_iff_strict_double_improvement_witness :
    (¬((20 : ℚ) < 50 ∧ (1/2 : ℚ) < targetAvgRecall 1 none [2/5])) ∧
    early_stopping_check 1 none ⟨50, 1/2, 9, 4, [3], [3]⟩ 9 20 [2/5] 4
      = .ok ⟨50, 1/2, 9, 5, [3], [3]⟩ := by
  constructor
  · norm_num [targetAvgRecall, List.range_succ]
  · exact (improved_iff_strict_double_improvement 1 none ⟨50, 1/2, 9, 4, [3], [3]⟩
      9 20 [2/5] 4).1 (by norm_num [targetAvgRecall, List.range_succ])

/-- C2 counterexample: the loss threshold is initialised to the float
literal `10e+5`, that is 1000000 — not positive infinity. A first epoch
whose validation loss is the finite value 1000000 with targeted average
recall 1/2 > 0 does not trigger IMPROVED: the counter is incremented
instead. -/
theorem init_threshold_is_one_million_counterexample :
    (initTrainState 0).threshold_val_loss = 1000000 ∧
    early_stopping_check 1 none (initTrainState 0) 0 1000000 [1/2] 1
      = .ok { initTrainState 0 with unchanged_epochs := 1 } := by
  refine ⟨rfl, ?_⟩
  apply check_not_improve
  norm_num [initTrainState]

/-- C2 amended: with thresholds initialised to `10e+5 = 1000000` and `0`,
the first epoch triggers IMPROVED whenever its validation loss is
strictly below 1000000 (not merely finite) and its targeted average
recall is strictly positive; epoch number 1 is recorded and checkpoint
file 1 is written. -/
theorem first_epoch_improves_below_million
    (n : ℕ) (normal : Option (List ℕ)) (m model : ℕ) (loss : ℚ)
    (recalls : List ℚ) (hl : loss < 1000000)
    (hr : 0 < targetAvgRecall n normal recalls) :
    early_stopping_check n normal (initTrainState m) model loss recalls 1
      = .ok ⟨loss, targetAvgRecall n normal recalls, model, 0, [1], [1]⟩ := by
  have h := check_improve_noprior n normal (initTrainState m) model loss recalls 1
    ⟨by simpa [initTrainState] using hl, by simpa [initTrainState] using hr⟩ (by omega)
  simpa [initTrainState] using h

/-- Witness for the amended C2 at a concrete first epoch: loss 1 and
per-class recalls `[1/2]` trigger IMPROVED from the initial state. -/
theorem first_epoch_improves_below_million_witness :
    ((1 : ℚ) < 1000000 ∧ (0 : ℚ) < targetAvgRecall 1 none [1/2]) ∧
    early_stopping_check 1 none (initTrainState 0) 5 1 [1/2] 1
      = .ok ⟨1, targetAvgRecall 1 none [1/2], 5, 0, [1], [1]⟩ := by
  refine ⟨⟨by norm_num, by norm_num [targetAvgRecall, List.range_succ]⟩, ?_⟩
  exact first_epoch_improves_below_million 1 none 0 5 1 [1/2] (by norm_num)
    (by norm_num [targetAvgRecall, List.range_succ])

/-- C3: evaluating the code at the failing input. From a fresh state that
saw one non-improving epoch, the first improvement arrives at epoch 2:
`early_stopping_checkpoints` becomes `[2]`, `current_epoch >= 2` guards
the pruning, and `early_stopping_checkpoints[-2]` raises IndexError even
though no earlier snapshot was ever persisted. -/
theorem first_improvement_at_epoch_two_index_error :
    early_stopping_check 1 none { initTrainState 0 with unchanged_epochs := 1 }
      5 10 [1/2] 2 = .error .indexError := by
  have hc : (10 : ℚ) <
      ({ initTrainState 0 with unchanged_epochs := 1 } : TrainState).threshold_val_loss ∧
      ({ initTrainState 0 with unchanged_epochs := 1 } : TrainState).threshold_avg_recall
        < targetAvgRecall 1 none [1/2] := by
    constructor <;> norm_num [initTrainState, targetAvgRecall, List.range_succ]
  simp only [early_stopping_check]
  rw [if_pos hc, if_pos (by omega : (2 : ℕ) ≤ 2)]
  norm_num [pyNegIdx, initTrainState]

/-- C4 counterexample: a state that recorded an improvement at epoch 1
whose checkpoint file is no longer on disk. The next improvement, at
epoch 2, reaches `os.remove` for the missing file and the resulting
error escapes `early_stopping_check`: the step aborts instead of
logging and continuing. -/
theorem missing_checkpoint_file_aborts_counterexample :
    early_stopping_check 1 none ⟨100, 1/2, 3, 0, [1], []⟩ 4 10 [3/4] 2
      = .error .fileNotFound := by
  have hc : (10 : ℚ) < ((⟨100, 1/2, 3, 0, [1], []⟩ : TrainState)).threshold_val_loss ∧
      ((⟨100, 1/2, 3, 0, [1], []⟩ : TrainState)).threshold_avg_recall
        < targetAvgRecall 1 none [3/4] := by
    constructor <;> norm_num [targetAvgRecall, List.range_succ]
  simp only [early_stopping_check]
  rw [if_pos hc, if_pos (by omega : (2 : ℕ) ≤ 2)]
  norm_num [pyNegIdx]

/-- C4 amended: whenever an improvement must prune the checkpoint of the
previous improvement epoch and that file does not exist, the failure is
not caught anywhere: `early_stopping_check` aborts with the error
instead of logging and continuing. -/
theorem missing_checkpoint_file_aborts
    (n : ℕ) (normal : Option (List ℕ)) (s : TrainState) (model : ℕ)
    (loss : ℚ) (recalls : List ℚ) (ce prev : ℕ)
    (hc : loss < s.threshold_val_loss ∧
        s.threshold_avg_recall < targetAvgRecall n normal recalls)
    (hce : 2 ≤ ce)
    (hidx : pyNegIdx (s.early_stopping_checkpoints ++ [ce]) 2 = some prev)
    (hmem : prev ∉ s.saved_files) :
    early_stopping_check n normal s model loss recalls ce
      = .error .fileNotFound := by
  simp only [early_stopping_check]
  rw [if_pos hc, if_pos hce, hidx]
  dsimp only
  rw [if_neg hmem]

/-- Witness for the amended C4 at a concrete input. -/
theorem missing_checkpoint_file_aborts_witness :
    (((50 : ℚ) < 200 ∧ (1/4 : ℚ) < targetAvgRecall 1 none [1/2])
      ∧ pyNegIdx ([3] ++ [5]) 2 = some 3 ∧ (3 : ℕ) ∉ ([] : List ℕ)) ∧
    early_stopping_check 1 none ⟨200, 1/4, 8, 2, [3], []⟩ 9 50 [1/2] 5
      = .error .fileNotFound := by
  refine ⟨⟨⟨by norm_num, by norm_num [targetAvgRecall, List.range_succ]⟩,
    by norm_num [pyNegIdx], by simp⟩, ?_⟩
  exact missing_checkpoint_file_aborts 1 none ⟨200, 1/4, 8, 2, [3], []⟩ 9 50 [1/2] 5 3
    ⟨by norm_num, by norm_num [targetAvgRecall, List.range_succ]⟩ (by omega)
    (by norm_num [pyNegIdx]) (by simp)

/-- C5 counterexample: a call of the accumulation step with true labels
`[0]` and predictions `[0, 1]` of different lengths does not fail: it
produces definite counts (with the correct-count taken over the
truncating `zip`). -/
theorem mismatched_batch_produces_counts_counterexample :
    ([0] : List ℕ).length ≠ ([0, 1] : List ℕ).length ∧
    batch_metrics 2 (zeroCounts 2) [0] [0, 1] = ⟨[1, 0], [1, 1], [1, 0]⟩ := by
  decide

theorem zip_take_length {α β : Type} (l : List α) (l' : List β) :
    l.zip (l'.take l.length) = l.zip l' := by
  induction l generalizing l' with
  | nil => simp
  | cons a t ih =>
    cases l' with
    | nil => simp
    | cons b t' => simp [ih]

theorem countCorrect_nil (preds : List ℕ) (clas : ℕ) :
    countCorrect [] preds clas = 0 := by
  simp [countCorrect]

theorem countCorrect_take (labels preds : List ℕ) (clas : ℕ) :
    countCorrect labels (preds.take labels.length) clas
      = countCorrect labels preds clas := by
  rw [countCorrect, countCorrect, zip_take_length]

/-- C5 amended: the accumulation step performs no length validation.
A call with `labels` shorter than `preds` produces the same counts as
accumulating the length-matched truncation and then accumulating the
leftover predictions with an empty label list: targets count all true
labels, predictions count all predicted labels, and correct counts run
over the `zip` truncated to the shorter sequence. -/
theorem batch_metrics_mismatch_truncates
    (n : ℕ) (c : ClassCounts) (labels preds : List ℕ)
    (h : labels.length ≤ preds.length) :
    batch_metrics n c labels preds
      = batch_metrics n (batch_metrics n c labels (preds.take labels.length))
          [] (preds.drop labels.length) := by
  simp only [batch_metrics, ClassCounts.mk.injEq]
  refine ⟨?_, ?_, ?_⟩
  · apply List.map_congr_left
    intro clas hclas
    rw [List.mem_range] at hclas
    rw [getD_map_range _ _ hclas]
    simp
  · apply List.map_congr_left
    intro clas hclas
    rw [List.mem_range] at hclas
    rw [getD_map_range _ _ hclas]
    conv_lhs => rw [← List.take_append_drop labels.length preds]
    rw [List.count_append, add_assoc]
  · apply List.map_congr_left
    intro clas hclas
    rw [List.mem_range] at hclas
    rw [getD_map_range _ _ hclas]
    rw [countCorrect_nil, countCorrect_take, add_zero]

/-- Witness for the amended C5 at the concrete mismatched call. -/
theorem batch_metrics_mismatch_truncates_witness :
    (([0] : List ℕ).length ≤ ([0, 1] : List ℕ).length) ∧
    batch_metrics 2 (zeroCounts 2) [0] [0, 1]
      = batch_metrics 2
          (batch_metrics 2 (zeroCounts 2) [0] (([0, 1] : List ℕ).take ([0] : List ℕ).length))
          [] (([0, 1] : List ℕ).drop ([0] : List ℕ).length) :=
  ⟨by decide, batch_metrics_mismatch_truncates 2 (zeroCounts 2) [0] [0, 1] (by decide)⟩

/-- C6: whenever every class has `correct_true <= target_true` and
`correct_true <= predicted_true`, all per-class recalls, precisions and
F1 values produced by the epoch metric derivation lie in [0, 1] after
rounding. -/
theorem perclass_metrics_in_unit_interval (n : ℕ) (c : ClassCounts)
    (h : ∀ k < n, c.correct_true.getD k 0 ≤ c.target_true.getD k 0
        ∧ c.correct_true.getD k 0 ≤ c.predicted_true.getD k 0) :
    (∀ x ∈ recalls n c, 0 ≤ x ∧ x ≤ 1)
    ∧ (∀ x ∈ precisions n c, 0 ≤ x ∧ x ≤ 1)
    ∧ (∀ x ∈ f1_scores n c, 0 ≤ x ∧ x ≤ 1) := by
  refine ⟨?_, ?_, ?_⟩
  · intro x hx
    simp only [recalls] at hx
    obtain ⟨k, hk, rfl⟩ := List.mem_map.mp hx
    rw [List.mem_range] at hk
    exact recall_c_bounds (h k hk).1
  · intro x hx
    simp only [precisions] at hx
    obtain ⟨k, hk, rfl⟩ := List.mem_map.mp hx
    rw [List.mem_range] at hk
    exact precision_c_bounds (h k hk).2
  · intro x hx
    simp only [f1_scores] at hx
    obtain ⟨k, hk, rfl⟩ := List.mem_map.mp hx
    rw [List.mem_range] at hk
    obtain ⟨hp0, hp1⟩ := precision_c_bounds (h k hk).2
    obtain ⟨hr0, hr1⟩ := recall_c_bounds (h k hk).1
    exact f1_c_bounds hp0 hp1 hr0 hr1

/-- Witness for C6 at the spec's own two-class scenario counts:
`target_true = [10, 5]`, `predicted_true = [9, 5]`, `correct_true = [8, 4]`. -/
theorem perclass_metrics_in_unit_interval_witness :
    (∀ k < 2, (⟨[10, 5], [9, 5], [8, 4]⟩ : ClassCounts).correct_true.getD k 0
          ≤ (⟨[10, 5], [9, 5], [8, 4]⟩ : ClassCounts).target_true.getD k 0
        ∧ (⟨[10, 5], [9, 5], [8, 4]⟩ : ClassCounts).correct_true.getD k 0
          ≤ (⟨[10, 5], [9, 5], [8, 4]⟩ : ClassCounts).predicted_true.getD k 0) ∧
    ((∀ x ∈ recalls 2 ⟨[10, 5], [9, 5], [8, 4]⟩, 0 ≤ x ∧ x ≤ 1)
      ∧ (∀ x ∈ precisions 2 ⟨[10, 5], [9, 5], [8, 4]⟩, 0 ≤ x ∧ x ≤ 1)
      ∧ (∀ x ∈ f1_scores 2 ⟨[10, 5], [9, 5], [8, 4]⟩, 0 ≤ x ∧ x ≤ 1)) :=
  ⟨by decide, perclass_metrics_in_unit_interval 2 ⟨[10, 5], [9, 5], [8, 4]⟩ (by decide)⟩

theorem batch_metrics_target_sum (n : ℕ) (c : ClassCounts)
    (labels preds : List ℕ) (hlen : c.target_true.length = n)
    (hlab : ∀ l ∈ labels, l < n) :
    (batch_metrics n c labels preds).target_true.sum
      = c.target_true.sum + labels.length := by
  simp only [batch_metrics]
  rw [List.sum_map_add, sum_count_range labels hlab]
  congr 1
  rw [← hlen, map_range_getD]

theorem accumulate_target_sum (n : ℕ) (batches : List (List ℕ × List ℕ))
    (c : ClassCounts) (hlen : c.target_true.length = n)
    (h : ∀ b ∈ batches, ∀ l ∈ b.1, l < n) :
    (batches.foldl (fun c b => batch_metrics n c b.1 b.2) c).target_true.sum
      = c.target_true.sum + (batches.map (fun b => b.1.length)).sum := by
  induction batches generalizing c with
  | nil => simp
  | cons b t ih =>
    rw [List.foldl_cons,
      ih (batch_metrics n c b.1 b.2) (by simp [batch_metrics])
        (fun b' hb' => h b' (by simp [hb'])),
      batch_metrics_target_sum n c b.1 b.2 hlen (h b (by simp))]
    simp [add_assoc]

/-- C7: starting from the reset counters, after any sequence of
accumulation calls in a phase whose true labels are valid class indices,
the sum over all classes of `target_true` equals the total number of
instances accumulated so far. -/
theorem sum_target_true_counts_all_instances (n : ℕ)
    (batches : List (List ℕ × List ℕ))
    (h : ∀ b ∈ batches, ∀ l ∈ b.1, l < n) :
    (accumulatePhase n batches).target_true.sum
      = (batches.map (fun b => b.1.length)).sum := by
  rw [accumulatePhase,
    accumulate_target_sum n batches (zeroCounts n) (by simp [zeroCounts]) h]
  simp [zeroCounts]

/-- Witness for C7 on two concrete batches of sizes 2 and 1. -/
theorem sum_target_true_counts_all_instances_witness :
    (∀ b ∈ ([([0, 1], [1, 1]), ([1], [0])] : List (List ℕ × List ℕ)), ∀ l ∈ b.1, l < 2) ∧
    (accumulatePhase 2 ([([0, 1], [1, 1]), ([1], [0])] : List (List ℕ × List ℕ))).target_true.sum
      = (([([0, 1], [1, 1]), ([1], [0])] : List (List ℕ × List ℕ)).map
          (fun b => b.1.length)).sum :=
  ⟨by decide, sum_target_true_counts_all_instances 2
    ([([0, 1], [1, 1]), ([1], [0])] : List (List ℕ × List ℕ)) (by decide)⟩

/-- C9: the per-class F1 produced by `epoch_metrics` agrees with the
double-rounded formula `round(2 * round(p*r/(p+r), 2), 2)` whenever the
rounded precision plus rounded recall is strictly positive (the code
computes `2 * round(p*r/(p+r), 2)`, and the outer rounding is the
identity on integer multiples of 1/100), and is 0 when that sum is 0. -/
theorem f1_equals_double_rounded_formula (n : ℕ) (c : ClassCounts) (k : ℕ)
    (hk : k < n) (p r : ℚ)
    (hp : p = precision_c (c.correct_true.getD k 0) (c.predicted_true.getD k 0))
    (hr : r = recall_c (c.correct_true.getD k 0) (c.target_true.getD k 0)) :
    (0 < p + r →
      (f1_scores n c).getD k 0 = pyRound2 (2 * pyRound2 (p * r / (p + r))))
    ∧ (p + r = 0 → (f1_scores n c).getD k 0 = 0) := by
  have hget : (f1_scores n c).getD k 0 = f1_c p r := by
    rw [f1_scores, getD_map_range _ _ hk, hp, hr]
  constructor
  · intro hpos
    rw [hget, f1_c, if_pos (ne_of_gt hpos), pyRound2_double]
  · intro hzero
    rw [hget, f1_c, if_neg (by simp [hzero])]

/-- Witness for C9 at concrete counts with `correct = 1`, `target = 2`,
`predicted = 2`, where precision and recall both round to 1/2. -/
theorem f1_equals_double_rounded_formula_witness :
    (0 : ℚ) < precision_c 1 2 + recall_c 1 2 ∧
    (f1_scores 1 ⟨[2], [2], [1]⟩).getD 0 0
      = pyRound2 (2 * pyRound2 (precision_c 1 2 * recall_c 1 2
          / (precision_c 1 2 + recall_c 1 2))) := by
  have hpos : (0 : ℚ) < precision_c 1 2 + recall_c 1 2 := by
    norm_num [precision_c, recall_c, pyRound2, roundHalfEven, ratFloor]
  exact ⟨hpos, (f1_equals_double_rounded_formula 1 ⟨[2], [2], [1]⟩ 0 (by norm_num)
    (precision_c 1 2) (recall_c 1 2) rfl rfl).1 hpos⟩

theorem trainingLoop_cons (n : ℕ) (normal : Option (List ℕ)) (patience : ℕ)
    (o : EpochObs) (rest : List EpochObs) (e : ℕ) (s s' : TrainState)
    (hchk : early_stopping_check n normal s o.model o.val_loss o.epoch_recalls (e + 1)
      = .ok s') :
    trainingLoop n normal patience (o :: rest) e s
      = if s'.unchanged_epochs = patience then .ok (s', 1)
        else
          match trainingLoop n normal patience rest (e + 1) s' with
          | .error err => .error err
          | .ok (sf, k) => .ok (sf, k + 1) := by
  simp only [trainingLoop, hchk]

theorem loop_stops_at_patience (n : ℕ) (normal : Option (List ℕ)) (patience : ℕ)
    (pre rest : List EpochObs) : ∀ (e : ℕ) (s : TrainState),
    (∀ o ∈ pre, ¬(o.val_loss < s.threshold_val_loss ∧
        s.threshold_avg_recall < targetAvgRecall n normal o.epoch_recalls)) →
    s.unchanged_epochs < patience →
    s.unchanged_epochs + pre.length = patience →
    trainingLoop n normal patience (pre ++ rest) e s
      = .ok ({ s with unchanged_epochs := patience }, pre.length) := by
  induction pre with
  | nil =>
    intro e s h hlt heq
    exact absurd heq (by simp; omega)
  | cons o t ih =>
    intro e s h hlt heq
    rw [List.cons_append,
      trainingLoop_cons n normal patience o (t ++ rest) e s _
        (check_not_improve n normal s o.model o.val_loss o.epoch_recalls (e + 1)
          (h o (by simp)))]
    by_cases hstop : s.unchanged_epochs + 1 = patience
    · rw [if_pos hstop]
      have hlen : t.length = 0 := by
        simp only [List.length_cons] at heq
        omega
      simp [hlen, hstop]
    · rw [if_neg hstop]
      rw [ih (e + 1) { s with unchanged_epochs := s.unchanged_epochs + 1 }
        (fun o' ho' => h o' (by simp [ho']))
        (by simp only []; omega)
        (by simp only [List.length_cons] at heq ⊢; omega)]
      simp

theorem loop_no_improve_exists (n : ℕ) (normal : Option (List ℕ)) (patience : ℕ)
    (obs : List EpochObs) : ∀ (e : ℕ) (s : TrainState),
    (∀ o ∈ obs, ¬(o.val_loss < s.threshold_val_loss ∧
        s.threshold_avg_recall < targetAvgRecall n normal o.epoch_recalls)) →
    ∃ k, k ≤ obs.length ∧ trainingLoop n normal patience obs e s
        = .ok ({ s with unchanged_epochs := s.unchanged_epochs + k }, k) := by
  induction obs with
  | nil =>
    intro e s h
    exact ⟨0, by simp, by simp [trainingLoop]⟩
  | cons o t ih =>
    intro e s h
    rw [trainingLoop_cons n normal patience o t e s _
      (check_not_improve n normal s o.model o.val_loss o.epoch_recalls (e + 1)
        (h o (by simp)))]
    by_cases hstop : s.unchanged_epochs + 1 = patience
    · rw [if_pos hstop]
      exact ⟨1, by simp, rfl⟩
    · rw [if_neg hstop]
      obtain ⟨k, hk, heq⟩ := ih (e + 1) { s with unchanged_epochs := s.unchanged_epochs + 1 }
        (fun o' ho' => h o' (by simp [ho']))
      rw [heq]
      refine ⟨k + 1, by simp; omega, ?_⟩
      rw [show s.unchanged_epochs + (k + 1) = s.unchanged_epochs + 1 + k by omega]

/-- C8: with patience 3, an improving first epoch followed by three
consecutive non-improving epochs makes the orchestrator exit exactly on
the third such epoch: `unchanged_epochs` reaches 3 and the loop stops by
the strict-equality test `unchanged_epochs == patience`, executing 4
epochs in total regardless of how many further epochs were available. -/
theorem patience_three_stops_on_third_nonimproving
    (n : ℕ) (normal : Option (List ℕ)) (m : ℕ) (o0 o1 o2 o3 : EpochObs)
    (rest : List EpochObs)
    (h0l : o0.val_loss < 1000000)
    (h0r : 0 < targetAvgRecall n normal o0.epoch_recalls)
    (h1 : ¬(o1.val_loss < o0.val_loss ∧ targetAvgRecall n normal o0.epoch_recalls
        < targetAvgRecall n normal o1.epoch_recalls))
    (h2 : ¬(o2.val_loss < o0.val_loss ∧ targetAvgRecall n normal o0.epoch_recalls
        < targetAvgRecall n normal o2.epoch_recalls))
    (h3 : ¬(o3.val_loss < o0.val_loss ∧ targetAvgRecall n normal o0.epoch_recalls
        < targetAvgRecall n normal o3.epoch_recalls)) :
    trainingLoop n normal 3 (o0 :: o1 :: o2 :: o3 :: rest) 0 (initTrainState m)
      = .ok (⟨o0.val_loss, targetAvgRecall n normal o0.epoch_recalls,
          o0.model, 3, [1], [1]⟩, 4) := by
  have hs1 : early_stopping_check n normal (initTrainState m) o0.model o0.val_loss
      o0.epoch_recalls (0 + 1)
      = .ok ⟨o0.val_loss, targetAvgRecall n normal o0.epoch_recalls,
          o0.model, 0, [1], [1]⟩ := by
    have := check_improve_noprior n normal (initTrainState m) o0.model o0.val_loss
      o0.epoch_recalls 1
      ⟨by simpa [initTrainState] using h0l, by simpa [initTrainState] using h0r⟩
      (by omega)
    simpa [initTrainState] using this
  rw [trainingLoop_cons n normal 3 o0 (o1 :: o2 :: o3 :: rest) 0 (initTrainState m) _ hs1]
  rw [if_neg (by norm_num :
    ¬((⟨o0.val_loss, targetAvgRecall n normal o0.epoch_recalls,
        o0.model, 0, [1], [1]⟩ : TrainState).unchanged_epochs = 3))]
  rw [show (o1 :: o2 :: o3 :: rest) = [o1, o2, o3] ++ rest from rfl]
  rw [loop_stops_at_patience n normal 3 [o1, o2, o3] rest (0 + 1)
    ⟨o0.val_loss, targetAvgRecall n normal o0.epoch_recalls, o0.model, 0, [1], [1]⟩
    (by
      intro o ho
      simp only [List.mem_cons, List.not_mem_nil, or_false] at ho
      rcases ho with rfl | rfl | rfl
      · exact h1
      · exact h2
      · exact h3)
    (by norm_num) (by norm_num)]
  rfl

/-- Witness for C8 at concrete epochs: loss 10 then 20, 30, 40 with no
recall improvement; the loop stops after 4 epochs with one further epoch
still available. -/
theorem patience_three_stops_on_third_nonimproving_witness :
    ((⟨7, 10, [1/2]⟩ : EpochObs).val_loss < 1000000
      ∧ (0 : ℚ) < targetAvgRecall 1 none [1/2]
      ∧ ¬((20 : ℚ) < 10 ∧ targetAvgRecall 1 none [1/2] < targetAvgRecall 1 none [1/4])
      ∧ ¬((30 : ℚ) < 10 ∧ targetAvgRecall 1 none [1/2] < targetAvgRecall 1 none [1/3])
      ∧ ¬((40 : ℚ) < 10 ∧ targetAvgRecall 1 none [1/2] < targetAvgRecall 1 none [1/5])) ∧
    trainingLoop 1 none 3
        ([⟨7, 10, [1/2]⟩, ⟨8, 20, [1/4]⟩, ⟨9, 30, [1/3]⟩, ⟨10, 40, [1/5]⟩,
          ⟨11, 1, [9/10]⟩] : List EpochObs) 0 (initTrainState 0)
      = .ok (⟨10, targetAvgRecall 1 none [1/2], 7, 3, [1], [1]⟩, 4) := by
  refine ⟨⟨by norm_num, by norm_num [targetAvgRecall, List.range_succ],
    fun h => absurd h.1 (by norm_num), fun h => absurd h.1 (by norm_num),
    fun h => absurd h.1 (by norm_num)⟩, ?_⟩
  exact patience_three_stops_on_third_nonimproving 1 none 0
    ⟨7, 10, [1/2]⟩ ⟨8, 20, [1/4]⟩ ⟨9, 30, [1/3]⟩ ⟨10, 40, [1/5]⟩
    [⟨11, 1, [9/10]⟩]
    (by norm_num) (by norm_num [targetAvgRecall, List.range_succ])
    (fun h => absurd h.1 (by norm_num)) (fun h => absurd h.1 (by norm_num))
    (fun h => absurd h.1 (by norm_num))

/-- C10: the best-model snapshot is defined from initialisation onward
(it is a value captured by `deepcopy` at the start of `training`), and a
run in which no epoch ever satisfies the improvement condition ends —
whether by patience or by exhausting the epochs — with the best model
still equal to the initial model, no checkpoint file ever persisted, no
improvement epoch recorded, and the thresholds untouched. -/
theorem no_improvement_keeps_initial_best (n : ℕ) (normal : Option (List ℕ))
    (patience m : ℕ) (obs : List EpochObs)
    (h : ∀ o ∈ obs, ¬(o.val_loss < 1000000 ∧
        (0 : ℚ) < targetAvgRecall n normal o.epoch_recalls)) :
    ∃ sf k, trainingLoop n normal patience obs 0 (initTrainState m) = .ok (sf, k)
      ∧ sf.best_model = m ∧ sf.saved_files = []
      ∧ sf.early_stopping_checkpoints = []
      ∧ sf.threshold_val_loss = 1000000 ∧ sf.threshold_avg_recall = 0 := by
  obtain ⟨k, hk, heq⟩ := loop_no_improve_exists n normal patience obs 0
    (initTrainState m) (fun o ho => by simpa [initTrainState] using h o ho)
  exact ⟨_, k, heq, rfl, rfl, rfl, rfl, rfl⟩

/-- Witness for C10: two epochs, the first with too large a loss, the
second with zero targeted recall; training keeps the initial model 7 and
persists nothing. -/
theorem no_improvement_keeps_initial_best_witness :
    (∀ o ∈ ([⟨1, 2000000, [1]⟩, ⟨2, 5, [0]⟩] : List EpochObs),
        ¬(o.val_loss < 1000000 ∧ (0 : ℚ) < targetAvgRecall 1 none o.epoch_recalls)) ∧
    (∃ sf k, trainingLoop 1 none 2 ([⟨1, 2000000, [1]⟩, ⟨2, 5, [0]⟩] : List EpochObs)
          0 (initTrainState 7) = .ok (sf, k)
      ∧ sf.best_model = 7 ∧ sf.saved_files = []
      ∧ sf.early_stopping_checkpoints = []
      ∧ sf.threshold_val_loss = 1000000 ∧ sf.threshold_avg_recall = 0) := by
  have hyp : ∀ o ∈ ([⟨1, 2000000, [1]⟩, ⟨2, 5, [0]⟩] : List EpochObs),
      ¬(o.val_loss < 1000000 ∧ (0 : ℚ) < targetAvgRecall 1 none o.epoch_recalls) := by
    intro o ho
    simp only [List.mem_cons, List.not_mem_nil, or_false] at ho
    rcases ho with rfl | rfl
    · exact fun h => absurd h.1 (by norm_num)
    · exact fun h => absurd h.2 (by norm_num [targetAvgRecall, List.range_succ])
  exact ⟨hyp, no_improvement_keeps_initial_best 1 none 2 7 _ hyp⟩
